import Mathlib

/-!
# Verification of the book-management service core

Shallow embedding of `src/book_mgt_api.py`: the data model (SQLAlchemy
`Book` and `Review` tables), the validation layer (pydantic `BookCreate`
and `ReviewCreate`), the basic-auth check (`authenticate_user`) and the
eight resource operations, modelled as pure functions over an explicit
store state.  The relational store is modelled as insertion-ordered lists
of rows with sequentially assigned primary keys; the foreign-key cascade
(`ondelete CASCADE` together with the ORM `cascade="all, delete-orphan"`)
and the `CheckConstraint` on `rating` are enforced at the store boundary,
as in the schema.
-/

namespace BookMgt

/-- A row of the `books` table (`class Book(Base)`): `id` is the
store-assigned primary key, `title` and `author` are `nullable=False`,
`genre`, `year_published` and `summary` are nullable columns. -/
structure Book where
  id : Nat
  title : String
  author : String
  genre : Option String
  year_published : Option Int
  summary : Option String
deriving Repr, DecidableEq

/-- A row of the `reviews` table (`class Review(Base)`): `book_id` is the
foreign key to `books.id` with `ondelete CASCADE`, `user_id` and `rating`
are `nullable=False`, and `rating` carries the check constraint
`rating >= 1 AND rating <= 5`.  The only writer of this table is
`create_review`, whose payload (`ReviewCreate`) requires `review_text`,
so rows carry a `String` text as in `ReviewResponse`. -/
structure Review where
  id : Nat
  book_id : Nat
  user_id : Int
  review_text : String
  rating : Int
deriving Repr, DecidableEq

/-- The pydantic `BookCreate` model: `title` and `author` required,
`genre`, `year_published` and `summary` optional with default `None`. -/
structure BookCreate where
  title : String
  author : String
  genre : Option String := none
  year_published : Option Int := none
  summary : Option String := none
deriving Repr, DecidableEq

/-- The pydantic `ReviewCreate` model: `user_id : int`,
`review_text : str` and `rating : int`, all three declared without a
default and hence all three required. -/
structure ReviewCreate where
  user_id : Int
  review_text : String
  rating : Int
deriving Repr, DecidableEq

/-- A raw inbound review payload, before pydantic validation: each field
either present (`some`) or absent (`none`). -/
structure ReviewPayload where
  user_id : Option Int
  review_text : Option String
  rating : Option Int
deriving Repr, DecidableEq

/-- Pydantic validation of a `ReviewCreate` payload: every field of the
model is declared without a default, so validation succeeds exactly when
all three fields are present. -/
def ReviewCreate.validate (p : ReviewPayload) : Option ReviewCreate :=
  match p.user_id, p.review_text, p.rating with
  | some u, some t, some r => some ⟨u, t, r⟩
  | _, _, _ => none

/-- The store state: the two tables in insertion order, plus the next
value of each primary-key sequence. -/
structure DB where
  books : List Book
  reviews : List Review
  next_book_id : Nat
  next_review_id : Nat
deriving Repr, DecidableEq

/-- The store created by `init_db`: both tables empty, key sequences at 1. -/
def initDB : DB := ⟨[], [], 1, 1⟩

/-- HTTP basic credentials presented with a request. -/
structure Credentials where
  username : String
  password : String
deriving Repr, DecidableEq

/-- Models passlib bcrypt verification: `verify(plain, hash(p))` holds
exactly when `plain = p`; the hash itself is abstracted by its
correctness property. -/
def verify_password (plain reference : String) : Bool :=
  plain == reference

/-- Function `authenticate_user`: timing-safe comparison of the username against
`"admin"` and bcrypt verification of the password against a hash of
`"password"`; raises 401 Unauthorized unless both match. -/
def authenticate_user (c : Credentials) : Bool :=
  (c.username == "admin") && verify_password c.password "password"

/-- The typed failure conditions the endpoints surface: 401 from
`authenticate_user`, 404 `HTTPException`s with their `detail` strings,
and the store-level rejection of a row violating the rating check
constraint. -/
inductive ApiError where
  | unauthorized
  | notFound (detail : String)
  | constraintViolation
deriving Repr, DecidableEq

/-- The `books` row built from a `BookCreate` payload in `create_book`
(`Book(**book.dict())` plus the assigned primary key). -/
def mkBook (id : Nat) (p : BookCreate) : Book :=
  ⟨id, p.title, p.author, p.genre, p.year_published, p.summary⟩

/-- The `reviews` row built from a `ReviewCreate` payload in
`create_review` (`Review(**review.dict(), book_id=id)` plus the assigned
primary key). -/
def mkReview (id : Nat) (book_id : Nat) (p : ReviewCreate) : Review :=
  ⟨id, book_id, p.user_id, p.review_text, p.rating⟩

/-- Query `select(Book).where(Book.id == id)` followed by
`scalar_one_or_none()`. -/
def findBook (db : DB) (id : Nat) : Option Book :=
  db.books.find? (fun b => b.id == id)

/-- Endpoint `POST /books/`: authenticate, insert the new row, commit, return the
refreshed record.  Mutating operations return the (possibly unchanged)
store alongside the result. -/
def create_book (cred : Credentials) (book : BookCreate) (db : DB) :
    Except ApiError Book × DB :=
  if !authenticate_user cred then (.error .unauthorized, db)
  else
    let b := mkBook db.next_book_id book
    (.ok b, { db with books := db.books ++ [b], next_book_id := db.next_book_id + 1 })

/-- Endpoint `GET /books/`: authenticate, then
`select(Book).offset(skip).limit(limit)` over the insertion-ordered
table; `skip` and `limit` default to 0 and 10 as in the signature. -/
def read_books (cred : Credentials) (db : DB)
    (skip : Nat := 0) (lim : Nat := 10) : Except ApiError (List Book) :=
  if !authenticate_user cred then .error .unauthorized
  else .ok ((db.books.drop skip).take lim)

/-- Endpoint `GET /books/{id}`: authenticate, look the row up, 404 if absent. -/
def read_book (cred : Credentials) (id : Nat) (db : DB) :
    Except ApiError Book :=
  if !authenticate_user cred then .error .unauthorized
  else
    match findBook db id with
    | none => .error (.notFound "Book not found")
    | some b => .ok b

/-- The field assignment loop of `update_book`:
`for key, value in book.dict().items(): setattr(db_book, key, value)` —
every column except the primary key is overwritten with the payload's
value (optional fields absent from the payload are `None` in
`book.dict()` and overwrite too). -/
def applyUpdate (p : BookCreate) (b : Book) : Book :=
  ⟨b.id, p.title, p.author, p.genre, p.year_published, p.summary⟩

/-- Endpoint `PUT /books/{id}`: authenticate, look the row up, 404 if absent,
otherwise overwrite every field from the payload, commit and return the
refreshed record. -/
def update_book (cred : Credentials) (id : Nat) (book : BookCreate) (db : DB) :
    Except ApiError Book × DB :=
  if !authenticate_user cred then (.error .unauthorized, db)
  else
    match findBook db id with
    | none => (.error (.notFound "Book not found"), db)
    | some b =>
        let b' := applyUpdate book b
        (.ok b',
         { db with books := db.books.map (fun x => if x.id == id then applyUpdate book x else x) })

/-- Endpoint `DELETE /books/{id}`: authenticate, look the row up, 404 if absent,
otherwise delete the row; the foreign key `ondelete CASCADE` (and the ORM
relationship cascade) deletes every review referencing it in the same
transaction. -/
def delete_book (cred : Credentials) (id : Nat) (db : DB) :
    Except ApiError String × DB :=
  if !authenticate_user cred then (.error .unauthorized, db)
  else
    match findBook db id with
    | none => (.error (.notFound "Book not found"), db)
    | some _ =>
        (.ok "Book deleted",
         { db with books := db.books.filter (fun b => b.id != id),
                   reviews := db.reviews.filter (fun r => r.book_id != id) })

/-- Endpoint `POST /books/{id}/reviews`: authenticate, 404 if the book is absent,
otherwise insert the review bound to the book and commit; the commit is
rejected by the store's check constraint when `rating` lies outside
`[1,5]`, leaving no row behind. -/
def create_review (cred : Credentials) (id : Nat) (review : ReviewCreate) (db : DB) :
    Except ApiError Review × DB :=
  if !authenticate_user cred then (.error .unauthorized, db)
  else
    match findBook db id with
    | none => (.error (.notFound "Book not found"), db)
    | some _ =>
        if 1 ≤ review.rating ∧ review.rating ≤ 5 then
          let r := mkReview db.next_review_id id review
          (.ok r, { db with reviews := db.reviews ++ [r],
                            next_review_id := db.next_review_id + 1 })
        else (.error .constraintViolation, db)

/-- Endpoint `GET /books/{id}/reviews`: authenticate, then
`select(Review).where(Review.book_id == id)` — no check that the book
exists. -/
def read_reviews (cred : Credentials) (id : Nat) (db : DB) :
    Except ApiError (List Review) :=
  if !authenticate_user cred then .error .unauthorized
  else .ok (db.reviews.filter (fun r => r.book_id == id))

/-- The response body of `GET /books/{id}/summary`: the exact average of
the ratings (Python float division modelled exactly in `ℚ`) and the
review texts joined by `" ".join`. -/
structure SummaryOut where
  average_rating : ℚ
  summary : String
deriving Repr, DecidableEq

/-- Endpoint `GET /books/{id}/summary`: authenticate, load the reviews of the
book, 404 if there are none, otherwise return the mean rating and the
space-joined texts. -/
def book_summary (cred : Credentials) (id : Nat) (db : DB) :
    Except ApiError SummaryOut :=
  if !authenticate_user cred then .error .unauthorized
  else
    let reviews := db.reviews.filter (fun r => r.book_id == id)
    if reviews.isEmpty then .error (.notFound "No reviews found for this book")
    else
      .ok ⟨((reviews.map (fun r => r.rating)).sum : ℚ) / (reviews.length : ℚ),
           String.intercalate " " (reviews.map (fun r => r.review_text))⟩

/-- One store-mutating call of the service (the read-only endpoints do
not alter the store by construction). -/
inductive Op where
  | createBook (cred : Credentials) (p : BookCreate)
  | updateBook (cred : Credentials) (id : Nat) (p : BookCreate)
  | deleteBook (cred : Credentials) (id : Nat)
  | createReview (cred : Credentials) (id : Nat) (p : ReviewCreate)

/-- The store state after a mutating call (unchanged when the call
fails). -/
def Op.apply : Op → DB → DB
  | .createBook cred p, db => (create_book cred p db).2
  | .updateBook cred id p, db => (update_book cred id p db).2
  | .deleteBook cred id, db => (delete_book cred id db).2
  | .createReview cred id p, db => (create_review cred id p db).2

/-- The store states reachable from the freshly initialized store by
sequences of service calls. -/
inductive Reachable : DB → Prop
  | init : Reachable initDB
  | step (op : Op) {db : DB} : Reachable db → Reachable (op.apply db)

/-- Referential integrity: every review's `book_id` references a live
book. -/
def NoOrphans (db : DB) : Prop :=
  ∀ r ∈ db.reviews, ∃ b ∈ db.books, b.id = r.book_id

/-- Store well-formedness: primary keys are below the next sequence
value, the `books` table is in ascending-id (insertion) order, and no
review is orphaned. -/
structure WF (db : DB) : Prop where
  books_fresh : ∀ b ∈ db.books, b.id < db.next_book_id
  reviews_fresh : ∀ r ∈ db.reviews, r.id < db.next_review_id
  books_sorted : db.books.Pairwise (fun a b => a.id < b.id)
  no_orphans : NoOrphans db

theorem wf_initDB : WF initDB := by
  constructor <;> simp [initDB, NoOrphans]

theorem wf_create_book (cred : Credentials) (p : BookCreate) {db : DB}
    (hwf : WF db) : WF (create_book cred p db).2 := by
  cases hauth : authenticate_user cred with
  | false => simpa [create_book, hauth] using hwf
  | true =>
      simp only [create_book, hauth, Bool.not_true, Bool.false_eq_true, if_false]
      refine ⟨?_, ?_, ?_, ?_⟩
      · intro b hb
        rcases List.mem_append.mp hb with h1 | h1
        · exact Nat.lt_succ_of_lt (hwf.books_fresh b h1)
        · rcases List.mem_singleton.mp h1 with rfl
          exact Nat.lt_succ_self _
      · exact fun r hr => hwf.reviews_fresh r hr
      · refine List.pairwise_append.mpr ⟨hwf.books_sorted, List.pairwise_singleton _ _, ?_⟩
        intro a ha b hb
        rcases List.mem_singleton.mp hb with rfl
        exact hwf.books_fresh a ha
      · intro r hr
        rcases hwf.no_orphans r hr with ⟨b, hb, hid⟩
        exact ⟨b, List.mem_append_left _ hb, hid⟩

theorem update_row_id (p : BookCreate) (id : Nat) (x : Book) :
    (if x.id == id then applyUpdate p x else x).id = x.id := by
  split <;> rfl

theorem wf_update_book (cred : Credentials) (id : Nat) (p : BookCreate) {db : DB}
    (hwf : WF db) : WF (update_book cred id p db).2 := by
  cases hauth : authenticate_user cred with
  | false => simpa [update_book, hauth] using hwf
  | true =>
      simp only [update_book, hauth, Bool.not_true, Bool.false_eq_true, if_false]
      cases hfind : findBook db id with
      | none => exact hwf
      | some b =>
          refine ⟨?_, ?_, ?_, ?_⟩
          · intro x hx
            rcases List.mem_map.mp hx with ⟨a, ha, rfl⟩
            rw [update_row_id]
            exact hwf.books_fresh a ha
          · exact fun r hr => hwf.reviews_fresh r hr
          · rw [List.pairwise_map]
            refine hwf.books_sorted.imp_of_mem ?_
            intro a c ha hc h
            rw [update_row_id, update_row_id]
            exact h
          · intro r hr
            rcases hwf.no_orphans r hr with ⟨w, hw, hid⟩
            refine ⟨if w.id == id then applyUpdate p w else w, List.mem_map.mpr ⟨w, hw, rfl⟩, ?_⟩
            rw [update_row_id]
            exact hid

theorem wf_delete_book (cred : Credentials) (id : Nat) {db : DB}
    (hwf : WF db) : WF (delete_book cred id db).2 := by
  cases hauth : authenticate_user cred with
  | false => simpa [delete_book, hauth] using hwf
  | true =>
      simp only [delete_book, hauth, Bool.not_true, Bool.false_eq_true, if_false]
      cases hfind : findBook db id with
      | none => exact hwf
      | some b =>
          refine ⟨?_, ?_, ?_, ?_⟩
          · intro x hx
            exact hwf.books_fresh x (List.mem_of_mem_filter hx)
          · intro r hr
            exact hwf.reviews_fresh r (List.mem_of_mem_filter hr)
          · exact hwf.books_sorted.filter _
          · intro r hr
            rcases List.mem_filter.mp hr with ⟨hr, hrne⟩
            rcases hwf.no_orphans r hr with ⟨w, hw, hid⟩
            refine ⟨w, List.mem_filter.mpr ⟨hw, ?_⟩, hid⟩
            simp only [bne_iff_ne, ne_eq] at hrne ⊢
            rw [hid]
            exact hrne

theorem wf_create_review (cred : Credentials) (id : Nat) (p : ReviewCreate) {db : DB}
    (hwf : WF db) : WF (create_review cred id p db).2 := by
  cases hauth : authenticate_user cred with
  | false => simpa [create_review, hauth] using hwf
  | true =>
      simp only [create_review, hauth, Bool.not_true, Bool.false_eq_true, if_false]
      cases hfind : findBook db id with
      | none => exact hwf
      | some b =>
          by_cases hrange : 1 ≤ p.rating ∧ p.rating ≤ 5

          · simp only [hrange, if_true]
            refine ⟨hwf.books_fresh, ?_, hwf.books_sorted, ?_⟩
            · intro r hr
              rcases List.mem_append.mp hr with h1 | h1
              · exact Nat.lt_succ_of_lt (hwf.reviews_fresh r h1)
              · rcases List.mem_singleton.mp h1 with rfl
                exact Nat.lt_succ_self _
            · intro r hr
              rcases List.mem_append.mp hr with h1 | h1
              · exact hwf.no_orphans r h1
              · rcases List.mem_singleton.mp h1 with rfl
                refine ⟨b, List.mem_of_find?_eq_some hfind, ?_⟩
                have := List.find?_some hfind
                simpa [mkReview] using (beq_iff_eq.mp this)
          · simp only [hrange, if_false]
            exact hwf

theorem wf_op_apply (op : Op) {db : DB} (hwf : WF db) : WF (op.apply db) := by
  cases op with
  | createBook cred p => exact wf_create_book cred p hwf
  | updateBook cred id p => exact wf_update_book cred id p hwf
  | deleteBook cred id => exact wf_delete_book cred id hwf
  | createReview cred id p => exact wf_create_review cred id p hwf

theorem reachable_wf {db : DB} (h : Reachable db) : WF db := by
  induction h with
  | init => exact wf_initDB
  | step op _ ih => exact wf_op_apply op ih

theorem find?_append_of_none {α : Type} (p : α → Bool) (l₁ l₂ : List α)
    (h : ∀ a ∈ l₁, p a = false) : (l₁ ++ l₂).find? p = l₂.find? p := by
  induction l₁ with
  | nil => rfl
  | cons a l ih =>
      rw [List.cons_append, List.find?_cons_of_neg _ (by simp [h a (by simp)]),
        ih fun x hx => h x (List.mem_cons_of_mem a hx)]

/-- The credential pair that `authenticate_user` accepts. -/
def goodCred : Credentials := ⟨"admin", "password"⟩

/-- A concrete store: one book with one review, as in the scenario
create Book then create Review. -/
def dbOne : DB :=
  ⟨[⟨1, "Dune", "Herbert", none, none, none⟩], [⟨1, 1, 7, "Great", 5⟩], 2, 2⟩

theorem reachable_dbOne : Reachable dbOne := by
  have h := Reachable.step (Op.createReview goodCred 1 ⟨7, "Great", 5⟩)
    (Reachable.step (Op.createBook goodCred ⟨"Dune", "Herbert", none, none, none⟩)
      Reachable.init)
  have e : Op.apply (Op.createReview goodCred 1 ⟨7, "Great", 5⟩)
      (Op.apply (Op.createBook goodCred ⟨"Dune", "Herbert", none, none, none⟩) initDB)
      = dbOne := by decide
  rw [e] at h
  exact h

theorem findBook_is_some_of_mem {db : DB} {id : Nat}
    (h : ∃ b ∈ db.books, b.id = id) : ∃ b, findBook db id = some b := by
  rcases h with ⟨b, hb, hid⟩
  cases hfind : findBook db id with
  | some b' => exact ⟨b', rfl⟩
  | none =>
      rw [findBook, List.find?_eq_none] at hfind
      exact absurd (beq_iff_eq.mpr hid) (hfind b hb)

/-- C7: every operation checks the presented credentials first; on a
wrong identity/secret pair it fails `Unauthorized` and the store state is
returned unchanged (read-only operations do not touch the state by
construction). -/
theorem unauthorized_short_circuits (cred : Credentials) (db : DB)
    (h : authenticate_user cred = false) :
    (∀ p, create_book cred p db = (.error .unauthorized, db)) ∧
    (∀ skip lim, read_books cred db skip lim = .error .unauthorized) ∧
    (∀ id, read_book cred id db = .error .unauthorized) ∧
    (∀ id p, update_book cred id p db = (.error .unauthorized, db)) ∧
    (∀ id, delete_book cred id db = (.error .unauthorized, db)) ∧
    (∀ id p, create_review cred id p db = (.error .unauthorized, db)) ∧
    (∀ id, read_reviews cred id db = .error .unauthorized) ∧
    (∀ id, book_summary cred id db = .error .unauthorized) := by
  refine ⟨?_, ?_, ?_, ?_, ?_, ?_, ?_, ?_⟩ <;> intros <;>
    simp [create_book, read_books, read_book, update_book, delete_book,
      create_review, read_reviews, book_summary, h]

theorem unauthorized_short_circuits_witness :
    authenticate_user ⟨"intruder", "guess"⟩ = false ∧
    delete_book ⟨"intruder", "guess"⟩ 1 dbOne = (.error .unauthorized, dbOne) :=
  ⟨rfl, (unauthorized_short_circuits ⟨"intruder", "guess"⟩ dbOne rfl).2.2.2.2.1 1⟩

/-- C2: a `createReview` call whose rating lies outside `[1,5]` always
fails and leaves the store unchanged; when the call actually reaches the
store (authenticated, book present) the failure is the store's check
constraint on `rating`. -/
theorem createReview_out_of_range_rejected (cred : Credentials) (id : Nat)
    (review : ReviewCreate) (db : DB)
    (hr : review.rating < 1 ∨ 5 < review.rating) :
    (∃ e, (create_review cred id review db).1 = .error e) ∧
    (create_review cred id review db).2 = db ∧
    (authenticate_user cred = true → (∃ b ∈ db.books, b.id = id) →
      (create_review cred id review db).1 = .error .constraintViolation) := by
  have hcond : ¬(1 ≤ review.rating ∧ review.rating ≤ 5) := by omega
  cases hauth : authenticate_user cred with
  | false =>
      refine ⟨⟨.unauthorized, ?_⟩, ?_, ?_⟩ <;> simp [create_review, hauth]
  | true =>
      cases hfind : findBook db id with
      | none =>
          refine ⟨⟨.notFound "Book not found", ?_⟩, ?_, ?_⟩
          · simp [create_review, hauth, hfind]
          · simp [create_review, hauth, hfind]
          · intro _ hmem
            rcases findBook_is_some_of_mem hmem with ⟨b, hb⟩
            rw [hfind] at hb
            exact absurd hb (by simp)
      | some b =>
          refine ⟨⟨.constraintViolation, ?_⟩, ?_, ?_⟩ <;>
            simp [create_review, hauth, hfind, hcond]

theorem createReview_out_of_range_witness :
    (create_review goodCred 1 ⟨7, "Terrible", 6⟩ dbOne).1 = .error .constraintViolation ∧
    (create_review goodCred 1 ⟨7, "Terrible", 6⟩ dbOne).2 = dbOne :=
  ⟨(createReview_out_of_range_rejected goodCred 1 ⟨7, "Terrible", 6⟩ dbOne
      (Or.inr (by decide))).2.2 rfl
    ⟨⟨1, "Dune", "Herbert", none, none, none⟩, by decide, rfl⟩,
   (createReview_out_of_range_rejected goodCred 1 ⟨7, "Terrible", 6⟩ dbOne
      (Or.inr (by decide))).2.1⟩

/-- C3: `summarize` fails `NotFound` exactly when the book's review set
is empty, with no check that the book itself exists; on a non-empty set
it returns the arithmetic mean of the ratings and the review texts
joined by single spaces in the order `listReviews` returns them. -/
theorem book_summary_mean_and_join (cred : Credentials) (id : Nat) (db : DB)
    (hauth : authenticate_user cred = true) :
    (db.reviews.filter (fun r => r.book_id == id) = [] ↔
      book_summary cred id db = .error (.notFound "No reviews found for this book")) ∧
    (db.reviews.filter (fun r => r.book_id == id) ≠ [] →
      ∃ out, book_summary cred id db = .ok out ∧
        read_reviews cred id db = .ok (db.reviews.filter fun r => r.book_id == id) ∧
        out.average_rating * ((db.reviews.filter fun r => r.book_id == id).length : ℚ) =
          (((db.reviews.filter fun r => r.book_id == id).map fun r => r.rating).sum : ℚ) ∧
        out.summary = String.intercalate " "
          ((db.reviews.filter fun r => r.book_id == id).map fun r => r.review_text)) := by
  have hbs : book_summary cred id db =
      if (db.reviews.filter fun r => r.book_id == id).isEmpty then
        .error (.notFound "No reviews found for this book")
      else
        .ok ⟨(((db.reviews.filter fun r => r.book_id == id).map fun r => r.rating).sum : ℚ) /
               ((db.reviews.filter fun r => r.book_id == id).length : ℚ),
             String.intercalate " "
               ((db.reviews.filter fun r => r.book_id == id).map fun r => r.review_text)⟩ := by
    simp [book_summary, hauth]
  constructor
  · constructor
    · intro h
      rw [hbs, if_pos (List.isEmpty_iff.mpr h)]
    · intro h
      by_contra hne
      rw [hbs, if_neg (by simpa [List.isEmpty_iff] using hne)] at h
      exact Except.noConfusion h
  · intro hne
    have hlen : ((db.reviews.filter fun r => r.book_id == id).length : ℚ) ≠ 0 := by
      simpa [List.length_eq_zero] using hne
    refine ⟨⟨(((db.reviews.filter fun r => r.book_id == id).map fun r => r.rating).sum : ℚ) /
        ((db.reviews.filter fun r => r.book_id == id).length : ℚ),
        String.intercalate " "
          ((db.reviews.filter fun r => r.book_id == id).map fun r => r.review_text)⟩,
      ?_, ?_, div_mul_cancel₀ _ hlen, rfl⟩
    · rw [hbs, if_neg (by simpa [List.isEmpty_iff] using hne)]
    · simp [read_reviews, hauth]

theorem book_summary_mean_and_join_witness :
    ∃ out, book_summary goodCred 1 dbOne = .ok out ∧
      read_reviews goodCred 1 dbOne = .ok (dbOne.reviews.filter fun r => r.book_id == 1) ∧
      out.average_rating * ((dbOne.reviews.filter fun r => r.book_id == 1).length : ℚ) =
        (((dbOne.reviews.filter fun r => r.book_id == 1).map fun r => r.rating).sum : ℚ) ∧
      out.summary = String.intercalate " "
        ((dbOne.reviews.filter fun r => r.book_id == 1).map fun r => r.review_text) :=
  (book_summary_mean_and_join goodCred 1 dbOne rfl).2 (by decide)

/-- C8: `listReviews` returns the reviews whose `book_id` matches, in
insertion order, and an empty sequence — not an error — when there are
none; it performs no book-existence check, and a missing book in any
reachable state also yields the empty sequence. -/
theorem listReviews_filter_no_existence_check (cred : Credentials) (id : Nat) (db : DB)
    (hauth : authenticate_user cred = true) :
    read_reviews cred id db = .ok (db.reviews.filter fun r => r.book_id == id) ∧
    ((∀ r ∈ db.reviews, r.book_id ≠ id) → read_reviews cred id db = .ok []) ∧
    (Reachable db → (∀ b ∈ db.books, b.id ≠ id) → read_reviews cred id db = .ok []) := by
  have hbase : read_reviews cred id db = .ok (db.reviews.filter fun r => r.book_id == id) := by
    simp [read_reviews, hauth]
  refine ⟨hbase, ?_, ?_⟩
  · intro h
    rw [hbase, List.filter_eq_nil_iff.mpr (by simpa using h)]
  · intro hreach hnone
    rw [hbase]
    rw [List.filter_eq_nil_iff.mpr ?_]
    intro r hr
    rcases (reachable_wf hreach).no_orphans r hr with ⟨b, hb, hid⟩
    simpa [hid] using hnone b hb

theorem listReviews_no_existence_check_witness :
    read_reviews goodCred 2 dbOne = .ok [] :=
  (listReviews_filter_no_existence_check goodCred 2 dbOne rfl).2.2 reachable_dbOne
    (by decide)

/-- C10: the division in `summarize` is guarded by the emptiness check:
an empty review set fails `NotFound` before the aggregate is computed,
and whenever a summary is produced the divisor (the number of reviews)
is strictly positive. -/
theorem book_summary_division_guarded (cred : Credentials) (id : Nat) (db : DB)
    (hauth : authenticate_user cred = true) :
    ((db.reviews.filter fun r => r.book_id == id).length = 0 →
      book_summary cred id db = .error (.notFound "No reviews found for this book")) ∧
    (∀ out, book_summary cred id db = .ok out →
      0 < (db.reviews.filter fun r => r.book_id == id).length) := by
  constructor
  · intro h
    simp [book_summary, hauth, List.length_eq_zero.mp h]
  · intro out hout
    by_contra hlen
    have h0 : (db.reviews.filter fun r => r.book_id == id).length = 0 := by omega
    simp [book_summary, hauth, List.length_eq_zero.mp h0] at hout

theorem book_summary_division_guarded_witness :
    book_summary goodCred 2 dbOne = .error (.notFound "No reviews found for this book") ∧
    0 < (dbOne.reviews.filter fun r => r.book_id == 1).length :=
  ⟨(book_summary_division_guarded goodCred 2 dbOne rfl).1 (by decide),
   (book_summary_division_guarded goodCred 1 dbOne rfl).2
     ⟨5, "Great"⟩ (by norm_num [book_summary, goodCred, dbOne, authenticate_user,
       verify_password]; rfl)⟩

/-- C1: deleting an existing book succeeds and cascades: afterwards its
review list is empty, reading it fails `NotFound`, and — across every
store state reachable by service calls — no review ever references a
book that is not live. -/
theorem deleteBook_cascade (cred : Credentials) (id : Nat) (db : DB)
    (hauth : authenticate_user cred = true)
    (hex : ∃ b ∈ db.books, b.id = id) :
    (delete_book cred id db).1 = .ok "Book deleted" ∧
    read_reviews cred id (delete_book cred id db).2 = .ok [] ∧
    read_book cred id (delete_book cred id db).2 = .error (.notFound "Book not found") ∧
    (∀ db', Reachable db' → NoOrphans db') := by
  rcases findBook_is_some_of_mem hex with ⟨b, hfind⟩
  have hdb2 : (delete_book cred id db).2 =
      { db with books := db.books.filter (fun b => b.id != id),
                reviews := db.reviews.filter (fun r => r.book_id != id) } := by
    simp [delete_book, hauth, hfind]
  refine ⟨by simp [delete_book, hauth, hfind], ?_, ?_,
    fun db' h => (reachable_wf h).no_orphans⟩
  · rw [hdb2]
    simp only [read_books, read_reviews, hauth, Bool.not_true, Bool.false_eq_true,
      if_false, Except.ok.injEq]
    rw [List.filter_eq_nil_iff]
    intro r hr
    rcases List.mem_filter.mp hr with ⟨_, hne⟩
    simpa using hne
  · rw [hdb2]
    simp only [read_book, hauth, Bool.not_true, Bool.false_eq_true, if_false]
    have hnone : findBook
        { db with books := db.books.filter (fun b => b.id != id),
                  reviews := db.reviews.filter (fun r => r.book_id != id) } id = none := by
      rw [findBook, List.find?_eq_none]
      intro a ha
      rcases List.mem_filter.mp ha with ⟨_, hne⟩
      simpa using hne
    rw [hnone]

theorem deleteBook_cascade_witness :
    (delete_book goodCred 1 dbOne).1 = .ok "Book deleted" ∧
    read_reviews goodCred 1 (delete_book goodCred 1 dbOne).2 = .ok [] ∧
    read_book goodCred 1 (delete_book goodCred 1 dbOne).2 =
      .error (.notFound "Book not found") :=
  ⟨(deleteBook_cascade goodCred 1 dbOne rfl
      ⟨⟨1, "Dune", "Herbert", none, none, none⟩, by decide, rfl⟩).1,
   (deleteBook_cascade goodCred 1 dbOne rfl
      ⟨⟨1, "Dune", "Herbert", none, none, none⟩, by decide, rfl⟩).2.1,
   (deleteBook_cascade goodCred 1 dbOne rfl
      ⟨⟨1, "Dune", "Herbert", none, none, none⟩, by decide, rfl⟩).2.2.1⟩

/-- C4: in any reachable catalog state, `createBook` returns the payload
plus the assigned id, and a `getBook` on that id reads the very record
back (create/get round-trip). -/
theorem createBook_getBook_roundtrip (cred : Credentials) (p : BookCreate) (db : DB)
    (hreach : Reachable db) (hauth : authenticate_user cred = true) :
    (create_book cred p db).1 = .ok (mkBook db.next_book_id p) ∧
    read_book cred db.next_book_id (create_book cred p db).2 =
      .ok ⟨db.next_book_id, p.title, p.author, p.genre, p.year_published, p.summary⟩ := by
  have hwf := reachable_wf hreach
  have hdb2 : (create_book cred p db).2 =
      { db with books := db.books ++ [mkBook db.next_book_id p],
                next_book_id := db.next_book_id + 1 } := by
    simp [create_book, hauth]
  refine ⟨by simp [create_book, hauth], ?_⟩
  rw [hdb2]
  simp only [read_book, hauth, Bool.not_true, Bool.false_eq_true, if_false]
  have hfind : findBook
      { db with books := db.books ++ [mkBook db.next_book_id p],
                next_book_id := db.next_book_id + 1 } db.next_book_id =
      some (mkBook db.next_book_id p) := by
    rw [findBook]
    show ((db.books ++ [mkBook db.next_book_id p]).find? fun b => b.id == db.next_book_id) = _
    rw [find?_append_of_none _ _ _ ?_]
    · exact List.find?_cons_of_pos _ (by simp [mkBook])
    · intro a ha
      simpa using Nat.ne_of_lt (hwf.books_fresh a ha)
  rw [hfind]
  rfl

theorem createBook_getBook_roundtrip_witness :
    (create_book goodCred ⟨"Dune", "Herbert", none, none, none⟩ initDB).1 =
      .ok (mkBook initDB.next_book_id ⟨"Dune", "Herbert", none, none, none⟩) ∧
    read_book goodCred initDB.next_book_id
      (create_book goodCred ⟨"Dune", "Herbert", none, none, none⟩ initDB).2 =
      .ok ⟨initDB.next_book_id, "Dune", "Herbert", none, none, none⟩ :=
  createBook_getBook_roundtrip goodCred ⟨"Dune", "Herbert", none, none, none⟩ initDB
    Reachable.init rfl

/-- C5: `updateBook` fails `NotFound` on an absent id with the store
unchanged; on a present id every field of the record is replaced by the
payload's value — the optional fields carry the payload's (possibly
absent) values, nothing is preserved from the prior record except the
id — and the replaced record is what the store then holds. -/
theorem updateBook_full_replace (cred : Credentials) (id : Nat) (p : BookCreate) (db : DB)
    (hauth : authenticate_user cred = true) :
    (findBook db id = none →
      update_book cred id p db = (.error (.notFound "Book not found"), db)) ∧
    (∀ b, findBook db id = some b →
      (update_book cred id p db).1 =
        .ok ⟨b.id, p.title, p.author, p.genre, p.year_published, p.summary⟩ ∧
      findBook (update_book cred id p db).2 id = some (applyUpdate p b)) := by
  constructor
  · intro h
    simp [update_book, hauth, h]
  · intro b hb
    have hb' : db.books.find? (fun b => b.id == id) = some b := hb
    have hbid : (b.id == id) = true := by simpa using List.find?_some hb'
    constructor
    · simp [update_book, hauth, hb, applyUpdate]
    · have hdb2 : (update_book cred id p db).2 =
          { db with books :=
              db.books.map (fun x => if x.id == id then applyUpdate p x else x) } := by
        simp [update_book, hauth, hb]
      rw [hdb2, findBook]
      show ((db.books.map fun x => if x.id == id then applyUpdate p x else x).find?
        fun b => b.id == id) = _
      rw [List.find?_map]
      have hcomp : ((fun b : Book => b.id == id) ∘
          fun x => if x.id == id then applyUpdate p x else x) =
          (fun x : Book => x.id == id) := by
        funext x
        simp only [Function.comp_apply, update_row_id]
      rw [hcomp, hb']
      simp only [Option.map]
      rw [if_pos hbid]

theorem updateBook_full_replace_witness :
    (update_book goodCred 1 ⟨"Messiah", "Herbert", none, none, none⟩ dbOne).1 =
      .ok ⟨1, "Messiah", "Herbert", none, none, none⟩ ∧
    findBook (update_book goodCred 1 ⟨"Messiah", "Herbert", none, none, none⟩ dbOne).2 1 =
      some (applyUpdate ⟨"Messiah", "Herbert", none, none, none⟩
        ⟨1, "Dune", "Herbert", none, none, none⟩) :=
  (updateBook_full_replace goodCred 1 ⟨"Messiah", "Herbert", none, none, none⟩ dbOne
    rfl).2 ⟨1, "Dune", "Herbert", none, none, none⟩ rfl

/-- C6: in any reachable catalog state, `listBooks` returns the books in
ascending-id (insertion) order, skipping the first `skip` and returning
at most `limit` of them; `skip` and `limit` default to 0 and 10, and no
upper bound is imposed on `limit` — a large enough `limit` returns the
whole catalog. -/
theorem listBooks_pagination (cred : Credentials) (skip lim : Nat) (db : DB)
    (hreach : Reachable db) (hauth : authenticate_user cred = true) :
    read_books cred db skip lim = .ok ((db.books.drop skip).take lim) ∧
    ((db.books.drop skip).take lim).Pairwise (fun a b => a.id < b.id) ∧
    read_books cred db = read_books cred db 0 10 ∧
    (db.books.length ≤ lim → read_books cred db 0 lim = .ok db.books) := by
  refine ⟨by simp [read_books, hauth], ?_, rfl, ?_⟩
  · exact List.Pairwise.sublist ((List.take_sublist _ _).trans (List.drop_sublist _ _))
      (reachable_wf hreach).books_sorted
  · intro hle
    simp [read_books, hauth, List.take_of_length_le hle]

theorem listBooks_pagination_witness :
    read_books goodCred initDB 0 10 = .ok [] :=
  (listBooks_pagination goodCred 0 10 initDB Reachable.init rfl).1

/-- C9 (counterexample): a review payload carrying `user_id` and a
rating in range but no `review_text` is rejected by pydantic validation,
because `ReviewCreate.review_text` is declared `str` with no default —
contrary to the claim that such a payload passes. -/
theorem reviewText_omitted_rejected :
    ReviewCreate.validate ⟨some 7, none, some 5⟩ = none := rfl

/-- C9 (amended): `review_text` is required, not optional: a
`ReviewCreate` payload passes pydantic validation exactly when all three
of `user_id`, `review_text` and `rating` are present (the `reviews`
store column is nullable, but the validation layer never lets an absent
text through). -/
theorem reviewText_required (p : ReviewPayload) :
    (ReviewCreate.validate p).isSome ↔
      (p.user_id.isSome ∧ p.review_text.isSome ∧ p.rating.isSome) := by
  rcases p with ⟨u, t, r⟩
  cases u <;> cases t <;> cases r <;> simp [ReviewCreate.validate]

end BookMgt
